import Mathlib

/-!
Shallow embedding of the goldchain consensus core:
the speculative-try transaction pipeline
(`vendor/github.com/threefoldtech/rivine/modules/consensus/validtransaction.go`)
and the consensus database guard (`database.go`).

Go machine types are modelled with `Nat` (heights, timestamps, sizes and
currency values never overflow in the claims considered), Go errors with an
explicit inductive error type, and the bolt key/value store with association
lists over `Nat` keys.
-/

set_option autoImplicit false

namespace Goldchain

/-- Errors surfaced by the consensus core.  Distinct Go error values are
distinct constructors; validator and plugin errors carry an opaque code. -/
inductive Err where
  /-- `siasync.ErrStopped`: the shutdown coordinator refuses new operations. -/
  | stopped
  /-- `errNilItem` / a missing path or block-map entry: a NotFound lookup. -/
  | notFound
  /-- an error produced by a transaction validator, opaque payload -/
  | vErr (code : Nat)
  /-- an error produced by a plugin apply hook, opaque payload -/
  | pErr (code : Nat)
  /-- `persist.ErrBadVersion`: the on-disk schema version is outdated. -/
  | badVersion
  /-- any other error of the persistence layer, opaque payload -/
  | otherErr (code : Nat)
  /-- `"error opening consensus database: " + inner` wrapping in `openDB` -/
  | openWrap (inner : Err)
  /-- `"error while backing up consensus database: " + inner` in `replaceDatabase` -/
  | backupWrap (inner : Err)
deriving DecidableEq, Repr

/-- A block payload, reduced to the fields this development reads:
its timestamp and an opaque rest. -/
structure Block where
  Timestamp : Nat
  payload : Nat
deriving DecidableEq, Repr

instance : Inhabited Block := ⟨⟨0, 0⟩⟩

/-- `types.CoinOutput`, reduced to a value and an opaque unlock condition. -/
structure CoinOutput where
  Value : Nat
  Condition : Nat
deriving DecidableEq, Repr

instance : Inhabited CoinOutput := ⟨⟨0, 0⟩⟩

/-- `types.BlockStakeOutput`, reduced as `CoinOutput`. -/
structure BlockStakeOutput where
  Value : Nat
  Condition : Nat
deriving DecidableEq, Repr

instance : Inhabited BlockStakeOutput := ⟨⟨0, 0⟩⟩

/-- `modules.CoinOutputDiff`: direction (`true` = DiffApply, `false` =
DiffRevert), output identifier and the output itself. -/
structure CoinOutputDiff where
  Direction : Bool
  ID : Nat
  CoinOutput : CoinOutput
deriving DecidableEq, Repr

/-- `modules.BlockStakeOutputDiff`. -/
structure BlockStakeOutputDiff where
  Direction : Bool
  ID : Nat
  BlockStakeOutput : BlockStakeOutput
deriving DecidableEq, Repr

/-- `processedBlock`: the stored block record, also used as the in-memory
diff holder of `TryTransactionSet`.  Only the fields this code touches. -/
structure processedBlock where
  Block : Block
  Height : Nat
  Depth : Nat
  ChildTarget : Nat
  CoinOutputDiffs : List CoinOutputDiff
  BlockStakeOutputDiffs : List BlockStakeOutputDiff
deriving DecidableEq, Repr

/-- The Go zero value `new(processedBlock)`. -/
instance : Inhabited processedBlock := ⟨⟨default, 0, 0, 0, [], []⟩⟩

/-- `modules.ConsensusBlock`, as built by `consensusStateGetter.BlockAtID`. -/
structure ConsensusBlock where
  Block : Block
  Height : Nat
  Depth : Nat
  ChildTarget : Nat
deriving DecidableEq, Repr

/-- `modules.ConsensusChange`, reduced to the two diff lists
`TryTransactionSet` populates. -/
structure ConsensusChange where
  CoinOutputDiffs : List CoinOutputDiff
  BlockStakeOutputDiffs : List BlockStakeOutputDiff
deriving DecidableEq, Repr

instance : Inhabited ConsensusChange := ⟨⟨[], []⟩⟩

/-- A transaction: version tag, consumed output identifiers and produced
outputs (identifiers given explicitly; in Go they are derived hashes). -/
structure Transaction where
  Version : Nat
  CoinInputs : List Nat
  CoinOutputs : List (Nat × CoinOutput)
  BlockStakeInputs : List Nat
  BlockStakeOutputs : List (Nat × BlockStakeOutput)
deriving DecidableEq, Repr

/-- `types.ValidationContext`. -/
structure ValidationContext where
  Confirmed : Bool
  BlockHeight : Nat
  BlockTime : Nat
  IsBlockCreatingTx : Bool
deriving DecidableEq, Repr

/-- `types.TransactionValidationConstants`. -/
structure TransactionValidationConstants where
  BlockSizeLimit : Nat
  ArbitraryDataSizeLimit : Nat
  MinimumMinerFee : Nat
deriving DecidableEq, Repr

/-- `types.TransactionValidationContext`. -/
structure TransactionValidationContext where
  ValidationContext : ValidationContext
  BlockSizeLimit : Nat
  ArbitraryDataSizeLimit : Nat
  MinimumMinerFee : Nat
deriving DecidableEq, Repr

/-- Association-list lookup, the model of a bolt bucket / Go map read. -/
def lookupA {α β : Type} [DecidableEq α] : List (α × β) → α → Option β
  | [], _ => none
  | (k, v) :: rest, key => if k = key then some v else lookupA rest key

/-- Association-list removal (bolt `Delete`). -/
def eraseA {α β : Type} [DecidableEq α] : List (α × β) → α → List (α × β)
  | [], _ => []
  | (k, v) :: rest, key => if k = key then eraseA rest key else (k, v) :: eraseA rest key

/-- Association-list insert/overwrite (bolt `Put`). -/
def putA {α β : Type} [DecidableEq α] : List (α × β) → α → β → List (α × β)
  | [], key, val => [(key, val)]
  | (k, v) :: rest, key, val =>
      if k = key then (key, val) :: rest else (k, v) :: putA rest key val

/-- A plugin's private bucket, opaque to the core: a list of bytes. -/
abbrev PluginBucket := List Nat

/-- The consensus store as seen through one bolt transaction: the block map,
the height-to-identifier path, the two unspent-output buckets, the persisted
chain-tip height, and the plugin buckets keyed by plugin name. -/
structure Store where
  blockMap : List (Nat × processedBlock)
  path : List (Nat × Nat)
  coinOutputs : List (Nat × CoinOutput)
  blockStakeOutputs : List (Nat × BlockStakeOutput)
  height : Nat
  pluginBuckets : List (Nat × PluginBucket)
deriving DecidableEq, Repr

/-- `getBlockMap`: fetch a processed block by identifier, NotFound if absent. -/
def getBlockMap (s : Store) (id : Nat) : Except Err processedBlock :=
  match lookupA s.blockMap id with
  | some pb => .ok pb
  | none => .error .notFound

/-- `getPath`: resolve a height to a block identifier, NotFound if absent. -/
def getPath (s : Store) (height : Nat) : Except Err Nat :=
  match lookupA s.path height with
  | some id => .ok id
  | none => .error .notFound

/-- `getCoinOutput`: fetch an unspent coin output, NotFound if absent. -/
def getCoinOutput (s : Store) (id : Nat) : Except Err CoinOutput :=
  match lookupA s.coinOutputs id with
  | some co => .ok co
  | none => .error .notFound

/-- `getBlockStakeOutput`: fetch an unspent block-stake output. -/
def getBlockStakeOutput (s : Store) (id : Nat) : Except Err BlockStakeOutput :=
  match lookupA s.blockStakeOutputs id with
  | some bso => .ok bso
  | none => .error .notFound

/-- `consensusStateGetter.BlockAtID`: fetch the block record and repackage
the four exposed fields as a `ConsensusBlock`. -/
def BlockAtID (s : Store) (id : Nat) : Except Err ConsensusBlock :=
  match getBlockMap s id with
  | .error e => .error e
  | .ok pb => .ok ⟨pb.Block, pb.Height, pb.Depth, pb.ChildTarget⟩

/-- `consensusStateGetter.BlockAtHeight`: resolve the height through the path
mapping, then delegate to `BlockAtID`. -/
def BlockAtHeight (s : Store) (height : Nat) : Except Err ConsensusBlock :=
  match getPath s height with
  | .error e => .error e
  | .ok id => BlockAtID s id

/-- `blockHeight`: read the persisted chain-tip height. -/
def blockHeight (s : Store) : Nat := s.height

/-- Modelled from the spec: `blockTimeStamp` is not under src; per the spec,
the timestamp for the speculative batch is derived from the current chain tip,
so resolve the height through the path and return that block's timestamp,
propagating lookup failures. -/
def blockTimeStamp (s : Store) (height : Nat) : Except Err Nat :=
  match getPath s height with
  | .error e => .error e
  | .ok id =>
    match getBlockMap s id with
    | .error e => .error e
    | .ok pb => .ok pb.Block.Timestamp

/-- A stand-alone transaction validator
(`types.TransactionValidationFunction`): it reads the store only through the
state getter, here the store snapshot itself, and returns the first error or
`none`. -/
abbrev TransactionValidationFunction :=
  Transaction → TransactionValidationContext → Store → Option Err

/-- Modelled from the spec: a registered plugin (the `modules.ConsensusSetPlugin`
interface is not under src).  Per the spec a plugin is bound either to one
transaction version or globally, may veto a transaction through a validator,
and owns an apply hook receiving (transaction, block context, height, its own
bucket) and returning success or an error; the hook may rewrite its bucket. -/
structure Plugin where
  boundVersion : Option Nat
  validate : TransactionValidationFunction
  applyTx : Transaction → Block → Nat → PluginBucket → Except Err PluginBucket

/-- `types.ChainConstants`, reduced to the three limits `TryTransactionSet`
reads. -/
structure ChainConstants where
  BlockSizeLimit : Nat
  ArbitraryDataSizeLimit : Nat
  MinimumTransactionFee : Nat
deriving DecidableEq, Repr

/-- The `ConsensusSet` receiver: validator registries, plugin registry keyed
by name, chain constants, and whether the shutdown coordinator is stopped
(`cs.tg.Add` fails exactly when it is). -/
structure ConsensusSet where
  txVersionMappedValidators : List (Nat × List TransactionValidationFunction)
  txValidators : List TransactionValidationFunction
  plugins : List (Nat × Plugin)
  chainCts : ChainConstants
  tgStopped : Bool

/-- Run validators in registration order, returning the first error. -/
def firstError (vs : List TransactionValidationFunction) (t : Transaction)
    (ctx : TransactionValidationContext) (s : Store) : Option Err :=
  match vs with
  | [] => none
  | v :: rest =>
    match v t ctx s with
    | some e => some e
    | none => firstError rest t ctx s

/-- Modelled from the spec: `validateTransactionUsingPlugins` is not under
src.  Per the spec, each registered plugin may veto the transaction; plugins
bound to a specific transaction version run only for that version, plugins
bound globally run for all, in registry order, short-circuiting on the first
failure. -/
def ConsensusSet.validateTransactionUsingPlugins (cs : ConsensusSet)
    (t : Transaction) (ctx : TransactionValidationContext) (s : Store) : Option Err :=
  firstError
    ((cs.plugins.filter fun p =>
        p.2.boundVersion = none ∨ p.2.boundVersion = some t.Version).map
      fun p => p.2.validate)
    t ctx s

/-- `ConsensusSet.validTransaction`: build the validation context
(`Confirmed = true` and the supplied height, timestamp, block-creating flag
and limits), then run version-mapped validators, stand-alone validators, and
the plugin validators, returning the first error. -/
def ConsensusSet.validTransaction (cs : ConsensusSet) (s : Store)
    (t : Transaction) (constants : TransactionValidationConstants)
    (bh : Nat) (blockTimestamp : Nat) (isBlockCreatingTx : Bool) : Option Err :=
  let ctx : TransactionValidationContext :=
    { ValidationContext :=
        { Confirmed := true
          BlockHeight := bh
          BlockTime := blockTimestamp
          IsBlockCreatingTx := isBlockCreatingTx }
      BlockSizeLimit := constants.BlockSizeLimit
      ArbitraryDataSizeLimit := constants.ArbitraryDataSizeLimit
      MinimumMinerFee := constants.MinimumMinerFee }
  match
    (match lookupA cs.txVersionMappedValidators t.Version with
     | some validators => firstError validators t ctx s
     | none => none)
  with
  | some e => some e
  | none =>
    match firstError cs.txValidators t ctx s with
    | some e => some e
    | none => cs.validateTransactionUsingPlugins t ctx s

/-- Modelled from the spec: `applyTransaction` is not under src.  Per the
spec it removes each consumed output from its bucket and inserts each produced
output, recording the corresponding diffs in order in the diff holder
(a removal diff carries direction DiffRevert and the output as it was stored;
an insertion diff carries direction DiffApply). -/
def applyTransaction (s : Store) (dh : processedBlock) (t : Transaction) :
    Store × processedBlock :=
  let spentCoin : List CoinOutputDiff := t.CoinInputs.map fun id =>
    ⟨false, id, (lookupA s.coinOutputs id).getD default⟩
  let newCoin : List CoinOutputDiff := t.CoinOutputs.map fun kv =>
    ⟨true, kv.1, kv.2⟩
  let spentBS : List BlockStakeOutputDiff := t.BlockStakeInputs.map fun id =>
    ⟨false, id, (lookupA s.blockStakeOutputs id).getD default⟩
  let newBS : List BlockStakeOutputDiff := t.BlockStakeOutputs.map fun kv =>
    ⟨true, kv.1, kv.2⟩
  let coinBucket :=
    t.CoinOutputs.foldl (fun b kv => putA b kv.1 kv.2)
      (t.CoinInputs.foldl eraseA s.coinOutputs)
  let bsBucket :=
    t.BlockStakeOutputs.foldl (fun b kv => putA b kv.1 kv.2)
      (t.BlockStakeInputs.foldl eraseA s.blockStakeOutputs)
  ({ s with coinOutputs := coinBucket, blockStakeOutputs := bsBucket },
   { dh with
      CoinOutputDiffs := dh.CoinOutputDiffs ++ spentCoin ++ newCoin
      BlockStakeOutputDiffs := dh.BlockStakeOutputDiffs ++ spentBS ++ newBS })

/-- `cs.bucketForPlugin`: the plugin's namespaced bucket, empty when not yet
created (bolt creates it on demand). -/
def bucketForPlugin (s : Store) (name : Nat) : PluginBucket :=
  (lookupA s.pluginBuckets name).getD []

/-- The inner plugin loop of `TryTransactionSet`: apply the transaction for
every registered plugin against its own bucket, writing the updated bucket
back to the store and short-circuiting on the first plugin error. -/
def applyPlugins (s : Store) (txn : Transaction) (b : Block) (h : Nat) :
    List (Nat × Plugin) → Except Err Store
  | [] => .ok s
  | (name, plugin) :: rest =>
    match plugin.applyTx txn b h (bucketForPlugin s name) with
    | .error e => .error e
    | .ok bucket =>
      applyPlugins { s with pluginBuckets := putA s.pluginBuckets name bucket }
        txn b h rest

/-- The result of the callback handed to `cs.db.Update`: a nil error (commit),
the local `errSuccess` sentinel, or a real error.  `errSuccess` is a fresh
error value created by `TryTransactionSet`, so no validator or plugin can
return it. -/
inductive CbErr where
  | nilErr
  | errSuccess
  | real (e : Err)
deriving DecidableEq, Repr

/-- The per-transaction loop in the body of the `Update` callback of
`TryTransactionSet`: validate each transaction (in order, with
`isBlockCreatingTx = false`), then apply its diffs and every plugin's apply
hook, returning the first validator or plugin error. -/
def ConsensusSet.tryLoop (cs : ConsensusSet) (blockTime : Nat) :
    List Transaction → Store → processedBlock → Store × processedBlock × Option Err
  | [], s, dh => (s, dh, none)
  | txn :: rest, s, dh =>
    match
      cs.validTransaction s txn
        { BlockSizeLimit := cs.chainCts.BlockSizeLimit
          ArbitraryDataSizeLimit := cs.chainCts.ArbitraryDataSizeLimit
          MinimumMinerFee := cs.chainCts.MinimumTransactionFee }
        dh.Height blockTime false
    with
    | some e => (s, dh, some e)
    | none =>
      let sdh := applyTransaction s dh txn
      match applyPlugins sdh.1 txn sdh.2.Block sdh.2.Height cs.plugins with
      | .error e => (sdh.1, sdh.2, some e)
      | .ok s2 => cs.tryLoop blockTime rest s2 sdh.2

/-- The callback `TryTransactionSet` hands to `cs.db.Update`: set the diff
holder's height from the chain tip, read the tip timestamp, run the
per-transaction loop, and return `errSuccess` on the happy path so bolt rolls
the transaction back. -/
def ConsensusSet.tryCallback (cs : ConsensusSet) (txns : List Transaction)
    (s : Store) (dh : processedBlock) : Store × processedBlock × CbErr :=
  let dh1 := { dh with Height := blockHeight s }
  match blockTimeStamp s dh1.Height with
  | .error e => (s, dh1, .real e)
  | .ok blockTime =>
    match cs.tryLoop blockTime txns s dh1 with
    | (s2, dh2, some e) => (s2, dh2, .real e)
    | (s2, dh2, none) => (s2, dh2, .errSuccess)

/-- bolt's `db.Update`: run the callback in a writable transaction; commit the
store when the callback returns nil, roll it back otherwise.  The diff holder
is plain memory, so it survives a rollback either way. -/
def dbUpdate (s : Store) (dh : processedBlock)
    (f : Store → processedBlock → Store × processedBlock × CbErr) :
    Store × processedBlock × CbErr :=
  match f s dh with
  | (s2, dh2, .nilErr) => (s2, dh2, .nilErr)
  | (_, dh2, e) => (s, dh2, e)

/-- Coarse effects of one `TryTransactionSet` call, in order: registering with
the shutdown coordinator, taking the read lock, and opening the database
update transaction. -/
inductive Event where
  | tgAdd
  | rLock
  | dbUpdateTx
deriving DecidableEq, Repr

/-- The outcome of `TryTransactionSet`: the durable store afterwards, the
returned consensus change and error, and the coarse effect trace. -/
structure TryResult where
  store : Store
  cc : ConsensusChange
  err : Option Err
  events : List Event
deriving Repr

/-- `ConsensusSet.TryTransactionSet`: register with the shutdown coordinator
(failing fast on its error), take the read lock, run the whole batch inside
one `db.Update` whose callback returns the `errSuccess` sentinel instead of
nil, and translate the sentinel into a successful `ConsensusChange` built from
the diff holder, returning any other error with an empty change. -/
def ConsensusSet.TryTransactionSet (cs : ConsensusSet) (s : Store)
    (txns : List Transaction) : TryResult :=
  if cs.tgStopped then
    { store := s, cc := default, err := some .stopped, events := [.tgAdd] }
  else
    let diffHolder : processedBlock := default
    match dbUpdate s diffHolder (cs.tryCallback txns) with
    | (s2, dh2, .errSuccess) =>
      { store := s2
        cc := ⟨dh2.CoinOutputDiffs, dh2.BlockStakeOutputDiffs⟩
        err := none
        events := [.tgAdd, .rLock, .dbUpdateTx] }
    | (s2, _, .nilErr) =>
      { store := s2, cc := default, err := none
        events := [.tgAdd, .rLock, .dbUpdateTx] }
    | (s2, _, .real e) =>
      { store := s2, cc := default, err := some e
        events := [.tgAdd, .rLock, .dbUpdateTx] }

/-! ### The consensus database guard (`database.go`) -/

/-- What the persistence layer can observe of the consensus database file. -/
inductive FileState where
  /-- no file on disk: `persist.OpenDatabase` creates a fresh store -/
  | absent
  /-- current schema version, with an opaque payload -/
  | current (payload : Nat)
  /-- outdated schema that the legacy conversion can fix in place -/
  | legacyConvertible (payload : Nat)
  /-- outdated schema that the legacy conversion again reports as bad-version -/
  | legacyUnreadable
  /-- outdated schema on which the legacy conversion fails with another error -/
  | legacyBrokenConv (e : Nat)
  /-- a file the open call fails on with an error other than bad-version -/
  | corrupt (e : Nat)
deriving DecidableEq, Repr

/-- Observable filesystem effects of `openDB`, in order. -/
inductive FSEvent where
  /-- the `fmt.Println` notice of `replaceDatabase` -/
  | printedReplaceNotice
  /-- `os.Rename src dst` succeeded -/
  | renamed (src dst : String)
deriving DecidableEq, Repr

/-- The filesystem as `openDB` sees it: named files plus the effect trace. -/
structure FS where
  files : List (String × FileState)
  events : List FSEvent
deriving DecidableEq, Repr

/-- Modelled from the spec: `persist.OpenDatabase` is not under src.  Per the
spec, open checks the stored header name and semantic version; an absent file
becomes a fresh empty store, a version mismatch reports the bad-version
condition, anything else an opaque error.  The returned `Nat` is the opened
store's payload (0 for a fresh one). -/
def OpenDatabase (fs : FS) (filename : String) : FS × Except Err Nat :=
  match lookupA fs.files filename with
  | none =>
    ({ fs with files := putA fs.files filename (.current 0) }, .ok 0)
  | some .absent =>
    ({ fs with files := putA fs.files filename (.current 0) }, .ok 0)
  | some (.current d) => (fs, .ok d)
  | some (.legacyConvertible _) => (fs, .error .badVersion)
  | some .legacyUnreadable => (fs, .error .badVersion)
  | some (.legacyBrokenConv _) => (fs, .error .badVersion)
  | some (.corrupt e) => (fs, .error (.otherErr e))

/-- Modelled from the spec: `convertLegacyDatabase` is not under src.  Per the
spec it attempts an in-place legacy conversion of an outdated store; when the
conversion itself finds the store unreadable it reports the bad-version
condition again, and it may also fail with another error. -/
def convertLegacyDatabase (fs : FS) (filename : String) : FS × Except Err Nat :=
  match lookupA fs.files filename with
  | some (.legacyConvertible d) =>
    ({ fs with files := putA fs.files filename (.current d) }, .ok d)
  | some .legacyUnreadable => (fs, .error .badVersion)
  | some (.legacyBrokenConv e) => (fs, .error (.otherErr e))
  | _ => (fs, .error (.otherErr 0))

/-- `os.Rename`: move the file, failing when the source does not exist. -/
def osRename (fs : FS) (src dst : String) : FS × Option Err :=
  match lookupA fs.files src with
  | none => (fs, some (.otherErr 2))
  | some st =>
    ({ files := putA (eraseA fs.files src) dst st
       events := fs.events ++ [.renamed src dst] }, none)

/-- `ConsensusSet.replaceDatabase`: print the replacement notice, back the
existing database up by renaming it to `filename + ".bck"`, then open a fresh
database at the original name, wrapping either failure. -/
def replaceDatabase (fs : FS) (filename : String) : FS × Except Err Nat :=
  let fs1 : FS := { fs with events := fs.events ++ [.printedReplaceNotice] }
  match osRename fs1 filename (filename ++ ".bck") with
  | (fs2, some e) => (fs2, .error (.backupWrap e))
  | (fs2, none) =>
    match OpenDatabase fs2 filename with
    | (fs3, .error e) => (fs3, .error (.openWrap e))
    | (fs3, .ok d) => (fs3, .ok d)

/-- `ConsensusSet.openDB`: open the store; on the bad-version condition try
the legacy conversion, and only when that again reports bad-version fall back
to `replaceDatabase`; wrap any other open or conversion error. -/
def openDB (fs : FS) (filename : String) : FS × Except Err Nat :=
  match OpenDatabase fs filename with
  | (fs1, .ok d) => (fs1, .ok d)
  | (fs1, .error .badVersion) =>
    match convertLegacyDatabase fs1 filename with
    | (fs2, .error .badVersion) => replaceDatabase fs2 filename
    | (fs2, .error e) => (fs2, .error (.openWrap e))
    | (fs2, .ok d) => (fs2, .ok d)
  | (fs1, .error e) => (fs1, .error (.openWrap e))

/-- A bolt transaction over the consensus database, for the initialization
and consistency-guard code: buckets by name, each a key/value byte map. -/
structure DbTx where
  buckets : List (String × List (String × List Nat))
deriving DecidableEq, Repr

/-- bolt `Tx.CreateBucket`: fails when the bucket already exists. -/
def createBucket (tx : DbTx) (name : String) : Except Err DbTx :=
  match lookupA tx.buckets name with
  | some _ => .error (.otherErr 1)
  | none => .ok { buckets := putA tx.buckets name [] }

/-- Create each named bucket in order, short-circuiting on failure. -/
def createBuckets : List String → DbTx → Except Err DbTx
  | [], tx => .ok tx
  | n :: rest, tx =>
    match createBucket tx n with
    | .error e => .error e
    | .ok tx1 => createBuckets rest tx1

/-- The required consensus buckets (the exact set lives outside src; the
`Consistency` member is the one the claims depend on). -/
def consensusBucketNames : List String :=
  ["BlockPath", "BlockMap", "CoinOutputs", "BlockStakeOutputs",
   "BlockHeight", "Consistency"]

/-- Modelled from the spec: `createConsensusDB` is not under src; it creates
all required consensus buckets inside the supplied transaction. -/
def createConsensusDB (tx : DbTx) : Except Err DbTx :=
  createBuckets consensusBucketNames tx

/-- Modelled from the spec: `createChangeLog` is not under src; it creates
the change-log bucket inside the supplied transaction. -/
def createChangeLog (tx : DbTx) : Except Err DbTx :=
  createBucket tx "ChangeLog"

/-- `siabin.Marshal` on a boolean: one byte, 0 or 1. -/
def siabinMarshalBool (b : Bool) : List Nat :=
  [if b then 1 else 0]

/-- `siabin.Unmarshal` into a boolean: exactly one byte, 0 or 1; anything
else (nil, empty, other bytes) is a decode error. -/
def siabinUnmarshalBool (bs : List Nat) : Option Bool :=
  match bs with
  | [0] => some false
  | [1] => some true
  | _ => none

/-- bolt `Bucket.Put` through `tx.Bucket(name)`: an absent bucket is a
failure (Go would fault on the nil bucket), otherwise the key is written. -/
def bucketPut (tx : DbTx) (bucket key : String) (val : List Nat) :
    Except Err DbTx :=
  match lookupA tx.buckets bucket with
  | none => .error (.otherErr 3)
  | some kvs => .ok { buckets := putA tx.buckets bucket (putA kvs key val) }

/-- bolt `Bucket.Get` through `tx.Bucket(name)`: nil (empty) for a missing
bucket or key. -/
def bucketGet (tx : DbTx) (bucket key : String) : List Nat :=
  (lookupA ((lookupA tx.buckets bucket).getD []) key).getD []

/-- `ConsensusSet.initDB`: create the consensus buckets, create the change
log, then put the marshalled `false` under the `Consistency` key of the
`Consistency` bucket, propagating the first failure. -/
def initDB (tx : DbTx) : Except Err DbTx :=
  match createConsensusDB tx with
  | .error e => .error e
  | .ok tx1 =>
    match createChangeLog tx1 with
    | .error e => .error e
    | .ok tx2 => bucketPut tx2 "Consistency" "Consistency" (siabinMarshalBool false)

/-- `inconsistencyDetected`: read the consistency flag; on a decode error
report through `build.Severe` (second component `true`) and leave `detected`
at its zero value `false`. -/
def inconsistencyDetected (tx : DbTx) : Bool × Bool :=
  let inconsistencyBytes := bucketGet tx "Consistency" "Consistency"
  match siabinUnmarshalBool inconsistencyBytes with
  | some detected => (detected, false)
  | none => (false, true)

/-! ### Concrete fixtures used by the witness theorems -/

/-- A stored block: timestamp 42, at height 3. -/
def pbFix : processedBlock := ⟨⟨42, 0⟩, 3, 0, 0, [], []⟩

/-- A store whose chain tip (height 3) resolves through the path to block 5,
holding one unspent coin output. -/
def sFix : Store :=
  { blockMap := [(5, pbFix)]
    path := [(3, 5)]
    coinOutputs := [(1, ⟨100, 0⟩)]
    blockStakeOutputs := []
    height := 3
    pluginBuckets := [] }

/-- A consensus set with no validators or plugins, running. -/
def csFix : ConsensusSet :=
  { txVersionMappedValidators := []
    txValidators := []
    plugins := []
    chainCts := ⟨2000000, 83, 1⟩
    tgStopped := false }

/-- The same consensus set with the shutdown coordinator stopped. -/
def csStopped : ConsensusSet := { csFix with tgStopped := true }

/-- A validator that rejects any transaction validated outside of a
block-creation context. -/
def vRejectPool : TransactionValidationFunction := fun _ ctx _ =>
  if ctx.ValidationContext.IsBlockCreatingTx then none else some (.vErr 9)

/-- The running consensus set extended with `vRejectPool` as a global
stand-alone validator. -/
def csReject : ConsensusSet := { csFix with txValidators := [vRejectPool] }

/-- A validator failing unconditionally with code 7. -/
def vFail7 : TransactionValidationFunction := fun _ _ _ => some (.vErr 7)

/-- A validator that rejects version-2 transactions validated outside of a
block-creation context, and accepts everything else: a "block-creating
only" transaction version. -/
def vRejectV2Pool : TransactionValidationFunction := fun t ctx _ =>
  if t.Version = 2 ∧ ¬ctx.ValidationContext.IsBlockCreatingTx then some (.vErr 11)
  else none

/-- The running consensus set extended with `vRejectV2Pool` as a global
stand-alone validator. -/
def csRejectV2 : ConsensusSet := { csFix with txValidators := [vRejectV2Pool] }

/-- A version-2 transaction with no inputs or outputs. -/
def t2Fix : Transaction := ⟨2, [], [], [], []⟩

/-- A transaction of version 1 spending coin output 1 into coin output 2. -/
def tFix : Transaction := ⟨1, [1], [(2, ⟨99, 0⟩)], [], []⟩

/-- A filesystem holding a single consensus database file. -/
def fsWith (st : FileState) : FS := ⟨[("db", st)], []⟩

/-- A transaction whose consistency flag bytes are undecodable. -/
def txBadFlag : DbTx := ⟨[("Consistency", [("Consistency", [7])])]⟩

/-! ### Helper lemmas -/

theorem lookupA_putA_self {α β : Type} [DecidableEq α] (l : List (α × β)) (k : α) (v : β) :
    lookupA (putA l k v) k = some v := by
  induction l with
  | nil => simp [putA, lookupA]
  | cons p rest ih =>
    obtain ⟨k0, v0⟩ := p
    by_cases h : k0 = k
    · subst h; simp [putA, lookupA]
    · simp [putA, lookupA, h, ih]

theorem lookupA_putA_ne {α β : Type} [DecidableEq α] (l : List (α × β)) (k k' : α) (v : β)
    (h : k ≠ k') : lookupA (putA l k' v) k = lookupA l k := by
  have h' : ¬k' = k := fun he => h he.symm
  induction l with
  | nil => simp [putA, lookupA, h']
  | cons p rest ih =>
    obtain ⟨k0, v0⟩ := p
    by_cases h0 : k0 = k'
    · subst h0
      simp [putA, lookupA, h']
    · by_cases h1 : k0 = k
      · subst h1; simp [putA, lookupA, h0]
      · simp [putA, lookupA, h0, h1, ih]

theorem lookupA_eraseA_self {α β : Type} [DecidableEq α] (l : List (α × β)) (k : α) :
    lookupA (eraseA l k) k = none := by
  induction l with
  | nil => simp [eraseA, lookupA]
  | cons p rest ih =>
    obtain ⟨k0, v0⟩ := p
    by_cases h : k0 = k
    · simp [eraseA, h, ih]
    · simp [eraseA, lookupA, h, ih]

theorem firstError_append (xs ys : List TransactionValidationFunction)
    (t : Transaction) (ctx : TransactionValidationContext) (s : Store) :
    firstError (xs ++ ys) t ctx s =
      match firstError xs t ctx s with
      | some e => some e
      | none => firstError ys t ctx s := by
  induction xs with
  | nil => simp [firstError]
  | cons v rest ih =>
    simp only [List.cons_append, firstError]
    cases v t ctx s with
    | some e => rfl
    | none => exact ih

theorem firstError_eq_none_mem (vs : List TransactionValidationFunction)
    (t : Transaction) (ctx : TransactionValidationContext) (s : Store)
    (h : firstError vs t ctx s = none) :
    ∀ v ∈ vs, v t ctx s = none := by
  induction vs with
  | nil => intro v hv; cases hv
  | cons v0 rest ih =>
    intro v hv
    have h0 : v0 t ctx s = none := by
      by_contra hne
      cases hx : v0 t ctx s with
      | none => exact hne hx
      | some e => simp [firstError, hx] at h
    cases hv with
    | head => exact h0
    | tail _ hmem =>
      apply ih _ _ hmem
      simpa [firstError, h0] using h

/-- The callback of `TryTransactionSet` always returns a non-nil error:
either the sentinel or a real failure. -/
theorem tryCallback_ne_nilErr (cs : ConsensusSet) (txns : List Transaction)
    (s : Store) (dh : processedBlock) :
    (cs.tryCallback txns s dh).2.2 ≠ CbErr.nilErr := by
  unfold ConsensusSet.tryCallback
  cases hbt : blockTimeStamp s (blockHeight s) with
  | error e => simp [hbt]
  | ok bt =>
    rcases hl : cs.tryLoop bt txns s { dh with Height := blockHeight s } with ⟨s2, dh2, e⟩
    cases e <;> simp [hbt, hl]

/-! ### Claim theorems -/

/-- C1: TryTransactionSet never durably commits the enclosing database
transaction: the callback always returns a non-nil error (the first failure
or the errSuccess sentinel), so the store after the call equals the store
before the call, whatever the outcome. -/
theorem C1_tryTransactionSet_never_commits (cs : ConsensusSet) (s : Store)
    (txns : List Transaction) :
    (cs.TryTransactionSet s txns).store = s ∧
    ∀ dh, (cs.tryCallback txns s dh).2.2 ≠ CbErr.nilErr := by
  refine ⟨?_, fun dh => tryCallback_ne_nilErr cs txns s dh⟩
  unfold ConsensusSet.TryTransactionSet
  cases hstop : cs.tgStopped with
  | true => simp
  | false =>
    simp only [Bool.false_eq_true, if_false]
    rcases hcb : cs.tryCallback txns s default with ⟨s2, dh2, e⟩
    have hne := tryCallback_ne_nilErr cs txns s default
    rw [hcb] at hne
    simp only at hne
    unfold dbUpdate
    rw [hcb]
    cases e with
    | nilErr => exact absurd rfl hne
    | errSuccess => simp
    | real e0 => simp

theorem C1_tryTransactionSet_never_commits_witness :
    (csReject.TryTransactionSet sFix [tFix]).store = sFix ∧
    (csReject.tryCallback [tFix] sFix default).2.2 ≠ CbErr.nilErr :=
  ⟨(C1_tryTransactionSet_never_commits csReject sFix [tFix]).1,
   (C1_tryTransactionSet_never_commits csReject sFix [tFix]).2 default⟩

/-- C5: the State Reader's block-by-height lookup resolves the height through
the height-to-identifier path mapping and then delegates to the
block-by-identifier lookup, failing with the path lookup's NotFound error
when no entry exists at that height. -/
theorem C5_blockAtHeight_delegates (s : Store) (h : Nat) :
    (∀ id, getPath s h = Except.ok id → BlockAtHeight s h = BlockAtID s id) ∧
    (∀ e, getPath s h = Except.error e → BlockAtHeight s h = Except.error e) ∧
    (lookupA s.path h = none → BlockAtHeight s h = Except.error Err.notFound) := by
  refine ⟨?_, ?_, ?_⟩
  · intro id hid
    unfold BlockAtHeight
    rw [hid]
  · intro e he
    unfold BlockAtHeight
    rw [he]
  · intro hnone
    have hp : getPath s h = Except.error Err.notFound := by
      unfold getPath
      rw [hnone]
    unfold BlockAtHeight
    rw [hp]

theorem C5_blockAtHeight_delegates_witness :
    BlockAtHeight sFix 3 = BlockAtID sFix 5 ∧
    BlockAtHeight sFix 4 = Except.error Err.notFound :=
  ⟨(C5_blockAtHeight_delegates sFix 3).1 5 rfl,
   (C5_blockAtHeight_delegates sFix 4).2.2 rfl⟩

/-- C8: when the shutdown coordinator refuses new operations,
TryTransactionSet returns a zero consensus change with that error
immediately: the store is untouched and neither the read lock nor a database
update transaction appears in the effect trace. -/
theorem C8_stopped_fails_fast (cs : ConsensusSet) (s : Store)
    (txns : List Transaction) (h : cs.tgStopped = true) :
    cs.TryTransactionSet s txns =
      { store := s, cc := default, err := some Err.stopped,
        events := [Event.tgAdd] } := by
  unfold ConsensusSet.TryTransactionSet
  simp [h]

theorem C8_stopped_fails_fast_witness :
    csStopped.TryTransactionSet sFix [tFix] =
      { store := sFix, cc := default, err := some Err.stopped,
        events := [Event.tgAdd] } :=
  C8_stopped_fails_fast csStopped sFix [tFix] rfl

/-- C10: inconsistencyDetected treats an undecodable consistency flag as
consistent: on a decode failure it reports through the severe path (second
component) and returns the zero value false. -/
theorem C10_undecodable_flag_reads_consistent (tx : DbTx)
    (h : siabinUnmarshalBool (bucketGet tx "Consistency" "Consistency") = none) :
    inconsistencyDetected tx = (false, true) := by
  unfold inconsistencyDetected
  simp only []
  rw [h]

theorem C10_undecodable_flag_reads_consistent_witness :
    siabinUnmarshalBool (bucketGet txBadFlag "Consistency" "Consistency") = none ∧
    inconsistencyDetected txBadFlag = (false, true) :=
  ⟨rfl, C10_undecodable_flag_reads_consistent txBadFlag rfl⟩

theorem createBucket_preserves (tx tx' : DbTx) (name m : String) (b : List (String × List Nat))
    (h : createBucket tx name = Except.ok tx')
    (hm : lookupA tx.buckets m = some b) :
    lookupA tx'.buckets m = some b := by
  unfold createBucket at h
  cases hl : lookupA tx.buckets name with
  | some _ => rw [hl] at h; cases h
  | none =>
    rw [hl] at h
    cases h
    have hne : m ≠ name := by
      intro he
      rw [he, hl] at hm
      cases hm
    simpa [lookupA_putA_ne _ _ _ _ hne] using hm

theorem createBuckets_preserves (ns : List String) (tx tx' : DbTx) (m : String)
    (b : List (String × List Nat))
    (h : createBuckets ns tx = Except.ok tx')
    (hm : lookupA tx.buckets m = some b) :
    lookupA tx'.buckets m = some b := by
  induction ns generalizing tx with
  | nil =>
    unfold createBuckets at h
    cases h
    exact hm
  | cons n rest ih =>
    unfold createBuckets at h
    cases hc : createBucket tx n with
    | error e => rw [hc] at h; cases h
    | ok tx1 =>
      rw [hc] at h
      exact ih tx1 h (createBucket_preserves tx tx1 n m b hc hm)

theorem createBuckets_creates (ns : List String) (tx tx' : DbTx)
    (h : createBuckets ns tx = Except.ok tx') :
    ∀ n ∈ ns, (lookupA tx'.buckets n).isSome := by
  induction ns generalizing tx with
  | nil => intro n hn; cases hn
  | cons n0 rest ih =>
    intro n hn
    unfold createBuckets at h
    cases hc : createBucket tx n0 with
    | error e => rw [hc] at h; cases h
    | ok tx1 =>
      rw [hc] at h
      cases hn with
      | head =>
        have h1 : lookupA tx1.buckets n0 = some [] := by
          unfold createBucket at hc
          cases hl : lookupA tx.buckets n0 with
          | some _ => rw [hl] at hc; cases hc
          | none =>
            rw [hl] at hc
            cases hc
            exact lookupA_putA_self _ _ _
        rw [createBuckets_preserves rest tx1 tx' n0 [] h h1]
        rfl
      | tail _ hmem => exact ih tx1 h n hmem

/-- C7: initDB, in one transaction, creates the consensus buckets and the
change log and then stores the marshalled false under the Consistency key,
so a committed initialization always carries both the buckets and the
flag. -/
theorem C7_initDB_writes_flag_with_buckets (tx tx' : DbTx)
    (h : initDB tx = Except.ok tx') :
    (∀ n ∈ consensusBucketNames, (lookupA tx'.buckets n).isSome) ∧
    (lookupA tx'.buckets "ChangeLog").isSome ∧
    bucketGet tx' "Consistency" "Consistency" = siabinMarshalBool false ∧
    siabinUnmarshalBool (bucketGet tx' "Consistency" "Consistency") = some false := by
  unfold initDB at h
  cases h1 : createConsensusDB tx with
  | error e => rw [h1] at h; cases h
  | ok tx1 =>
    rw [h1] at h
    dsimp only at h
    cases h2 : createChangeLog tx1 with
    | error e => rw [h2] at h; cases h
    | ok tx2 =>
      rw [h2] at h
      dsimp only at h
      unfold bucketPut at h
      cases h3 : lookupA tx2.buckets "Consistency" with
      | none => rw [h3] at h; cases h
      | some kvs =>
        rw [h3] at h
        cases h
        have hput : ∀ m : String, (lookupA tx2.buckets m).isSome →
            (lookupA (putA tx2.buckets "Consistency" (putA kvs "Consistency" (siabinMarshalBool false))) m).isSome := by
          intro m hm
          by_cases hc : m = "Consistency"
          · subst hc
            rw [lookupA_putA_self]
            rfl
          · rw [lookupA_putA_ne _ _ _ _ hc]
            exact hm
        refine ⟨?_, ?_, ?_, ?_⟩
        · intro n hn
          apply hput
          have := createBuckets_creates consensusBucketNames tx tx1 h1 n hn
          cases hv : lookupA tx1.buckets n with
          | none => rw [hv] at this; cases this
          | some b =>
            rw [createBucket_preserves tx1 tx2 "ChangeLog" n b h2 hv]
            rfl
        · apply hput
          have hcl : lookupA tx2.buckets "ChangeLog" = some [] := by
            unfold createChangeLog createBucket at h2
            cases hl : lookupA tx1.buckets "ChangeLog" with
            | some _ => rw [hl] at h2; cases h2
            | none =>
              rw [hl] at h2
              cases h2
              exact lookupA_putA_self _ _ _
          rw [hcl]
          rfl
        · unfold bucketGet
          rw [lookupA_putA_self]
          simp [lookupA_putA_self]
        · unfold bucketGet
          rw [lookupA_putA_self]
          simp [lookupA_putA_self, siabinMarshalBool, siabinUnmarshalBool]

theorem C7_initDB_writes_flag_with_buckets_witness :
    (∀ n ∈ consensusBucketNames, (lookupA (DbTx.mk
      [("BlockPath", []), ("BlockMap", []), ("CoinOutputs", []),
       ("BlockStakeOutputs", []), ("BlockHeight", []),
       ("Consistency", [("Consistency", [0])]), ("ChangeLog", [])]).buckets n).isSome) ∧
    (lookupA (DbTx.mk
      [("BlockPath", []), ("BlockMap", []), ("CoinOutputs", []),
       ("BlockStakeOutputs", []), ("BlockHeight", []),
       ("Consistency", [("Consistency", [0])]), ("ChangeLog", [])]).buckets "ChangeLog").isSome ∧
    bucketGet (DbTx.mk
      [("BlockPath", []), ("BlockMap", []), ("CoinOutputs", []),
       ("BlockStakeOutputs", []), ("BlockHeight", []),
       ("Consistency", [("Consistency", [0])]), ("ChangeLog", [])]) "Consistency" "Consistency" =
      siabinMarshalBool false ∧
    siabinUnmarshalBool (bucketGet (DbTx.mk
      [("BlockPath", []), ("BlockMap", []), ("CoinOutputs", []),
       ("BlockStakeOutputs", []), ("BlockHeight", []),
       ("Consistency", [("Consistency", [0])]), ("ChangeLog", [])]) "Consistency" "Consistency") =
      some false :=
  C7_initDB_writes_flag_with_buckets (DbTx.mk []) _ rfl

theorem ne_append_bck (s : String) : s ≠ s ++ ".bck" := by
  intro h
  have h2 := congrArg String.data h
  simp at h2

/-- C6: on an outdated store, openDB first tries the in-place legacy
conversion; only when conversion again reports the bad-version condition does
it print the replacement notice, rename the original to `.bck` (keeping it),
and open a fresh database; every other open or conversion error is returned
wrapped, with the filesystem untouched. -/
theorem C6_openDB_replace_on_unreadable (fs : FS) (filename : String) :
    (lookupA fs.files filename = some FileState.legacyUnreadable →
      openDB fs filename =
        ({ files := putA (putA (eraseA fs.files filename) (filename ++ ".bck")
                      FileState.legacyUnreadable) filename (FileState.current 0)
           events := fs.events ++
             [FSEvent.printedReplaceNotice,
              FSEvent.renamed filename (filename ++ ".bck")] }, Except.ok 0)) ∧
    (∀ d, lookupA fs.files filename = some (FileState.legacyConvertible d) →
      openDB fs filename =
        ({ fs with files := putA fs.files filename (FileState.current d) }, Except.ok d)) ∧
    (∀ e, lookupA fs.files filename = some (FileState.corrupt e) →
      openDB fs filename = (fs, Except.error (Err.openWrap (Err.otherErr e)))) ∧
    (∀ e, lookupA fs.files filename = some (FileState.legacyBrokenConv e) →
      openDB fs filename = (fs, Except.error (Err.openWrap (Err.otherErr e)))) := by
  refine ⟨?_, ?_, ?_, ?_⟩
  · intro h
    have hnone : lookupA (putA (eraseA fs.files filename) (filename ++ ".bck")
        FileState.legacyUnreadable) filename = none := by
      rw [lookupA_putA_ne _ _ _ _ (ne_append_bck filename), lookupA_eraseA_self]
    simp only [openDB, OpenDatabase, convertLegacyDatabase, replaceDatabase, osRename,
      h, hnone]
    simp
  · intro d h
    simp only [openDB, OpenDatabase, convertLegacyDatabase, h]
  · intro e h
    simp only [openDB, OpenDatabase, h]
  · intro e h
    simp only [openDB, OpenDatabase, convertLegacyDatabase, h]

theorem C6_openDB_replace_on_unreadable_witness :
    openDB (fsWith FileState.legacyUnreadable) "db" =
      ({ files := [("db.bck", FileState.legacyUnreadable), ("db", FileState.current 0)]
         events := [FSEvent.printedReplaceNotice, FSEvent.renamed "db" "db.bck"] },
       Except.ok 0) ∧
    openDB (fsWith (FileState.legacyConvertible 9)) "db" =
      ({ files := [("db", FileState.current 9)], events := [] }, Except.ok 9) ∧
    openDB (fsWith (FileState.corrupt 4)) "db" =
      (fsWith (FileState.corrupt 4), Except.error (Err.openWrap (Err.otherErr 4))) ∧
    openDB (fsWith (FileState.legacyBrokenConv 6)) "db" =
      (fsWith (FileState.legacyBrokenConv 6), Except.error (Err.openWrap (Err.otherErr 6))) := by
  refine ⟨?_, ?_, ?_, ?_⟩
  · have h := (C6_openDB_replace_on_unreadable (fsWith FileState.legacyUnreadable) "db").1 rfl
    rw [h]
    rfl
  · exact (C6_openDB_replace_on_unreadable (fsWith (FileState.legacyConvertible 9)) "db").2.1 9 rfl
  · exact (C6_openDB_replace_on_unreadable (fsWith (FileState.corrupt 4)) "db").2.2.1 4 rfl
  · exact (C6_openDB_replace_on_unreadable (fsWith (FileState.legacyBrokenConv 6)) "db").2.2.2 6 rfl

theorem firstError_short_circuit (vs1 vs2 : List TransactionValidationFunction)
    (v : TransactionValidationFunction) (t : Transaction)
    (ctx : TransactionValidationContext) (s : Store) (e : Err)
    (h1 : firstError vs1 t ctx s = none) (h2 : v t ctx s = some e) :
    firstError (vs1 ++ v :: vs2) t ctx s = some e := by
  rw [firstError_append, h1]
  simp [firstError, h2]

/-- The validation pipeline of `validTransaction` is one short-circuiting run
over version-mapped validators, then the stand-alone validators, then the
plugin validators, against the context built from the supplied parameters
with `Confirmed = true`. -/
theorem validTransaction_eq_firstError (cs : ConsensusSet) (s : Store)
    (t : Transaction) (constants : TransactionValidationConstants)
    (bh btime : Nat) (ib : Bool) :
    cs.validTransaction s t constants bh btime ib =
      firstError
        (((lookupA cs.txVersionMappedValidators t.Version).getD []) ++ cs.txValidators ++
          ((cs.plugins.filter fun p =>
              p.2.boundVersion = none ∨ p.2.boundVersion = some t.Version).map
            fun p => p.2.validate))
        t
        ⟨⟨true, bh, btime, ib⟩, constants.BlockSizeLimit,
         constants.ArbitraryDataSizeLimit, constants.MinimumMinerFee⟩ s := by
  unfold ConsensusSet.validTransaction ConsensusSet.validateTransactionUsingPlugins
  rw [firstError_append, firstError_append]
  cases hl : lookupA cs.txVersionMappedValidators t.Version with
  | none =>
    simp only [hl, Option.getD_none]
    cases h2 : firstError cs.txValidators t
        ⟨⟨true, bh, btime, ib⟩, constants.BlockSizeLimit,
         constants.ArbitraryDataSizeLimit, constants.MinimumMinerFee⟩ s <;>
      simp [h2, firstError]
  | some validators =>
    simp only [hl, Option.getD_some]
    cases h1 : firstError validators t
        ⟨⟨true, bh, btime, ib⟩, constants.BlockSizeLimit,
         constants.ArbitraryDataSizeLimit, constants.MinimumMinerFee⟩ s with
    | some e => simp [h1]
    | none =>
      cases h2 : firstError cs.txValidators t
          ⟨⟨true, bh, btime, ib⟩, constants.BlockSizeLimit,
           constants.ArbitraryDataSizeLimit, constants.MinimumMinerFee⟩ s <;>
        simp [h1, h2, firstError]

theorem firstError_append_eq_none (xs ys : List TransactionValidationFunction)
    (t : Transaction) (ctx : TransactionValidationContext) (s : Store)
    (h : firstError (xs ++ ys) t ctx s = none) :
    firstError xs t ctx s = none ∧ firstError ys t ctx s = none := by
  rw [firstError_append] at h
  cases hx : firstError xs t ctx s with
  | some e => rw [hx] at h; cases h
  | none => rw [hx] at h; exact ⟨rfl, h⟩

/-- When `validTransaction` passes, in particular every global stand-alone
validator passed on the context it was invoked with. -/
theorem validTransaction_none_global (cs : ConsensusSet) (s : Store)
    (t : Transaction) (constants : TransactionValidationConstants)
    (bh btime : Nat) (ib : Bool)
    (h : cs.validTransaction s t constants bh btime ib = none) :
    firstError cs.txValidators t
      ⟨⟨true, bh, btime, ib⟩, constants.BlockSizeLimit,
       constants.ArbitraryDataSizeLimit, constants.MinimumMinerFee⟩ s = none := by
  rw [validTransaction_eq_firstError] at h
  have h1 := (firstError_append_eq_none _ _ _ _ _ h).1
  exact (firstError_append_eq_none _ _ _ _ _ h1).2

/-- C3: validTransaction builds a context with Confirmed = true and the
supplied height, timestamp, block-creating flag and limits, then runs the
version-mapped validators, the global validators and the plugin validators in
that order, returning the first error; once a validator has failed, the
validators after it never influence the result. -/
theorem C3_validation_pipeline_order (cs : ConsensusSet) (s : Store)
    (t : Transaction) (constants : TransactionValidationConstants)
    (bh btime : Nat) (ib : Bool) :
    cs.validTransaction s t constants bh btime ib =
      firstError
        (((lookupA cs.txVersionMappedValidators t.Version).getD []) ++ cs.txValidators ++
          ((cs.plugins.filter fun p =>
              p.2.boundVersion = none ∨ p.2.boundVersion = some t.Version).map
            fun p => p.2.validate))
        t
        { ValidationContext :=
            { Confirmed := true, BlockHeight := bh, BlockTime := btime,
              IsBlockCreatingTx := ib }
          BlockSizeLimit := constants.BlockSizeLimit
          ArbitraryDataSizeLimit := constants.ArbitraryDataSizeLimit
          MinimumMinerFee := constants.MinimumMinerFee } s ∧
    (∀ (vs1 vs2 : List TransactionValidationFunction)
        (v : TransactionValidationFunction) (e : Err),
      firstError vs1 t
        ⟨⟨true, bh, btime, ib⟩, constants.BlockSizeLimit,
         constants.ArbitraryDataSizeLimit, constants.MinimumMinerFee⟩ s = none →
      v t ⟨⟨true, bh, btime, ib⟩, constants.BlockSizeLimit,
           constants.ArbitraryDataSizeLimit, constants.MinimumMinerFee⟩ s = some e →
      firstError (vs1 ++ v :: vs2) t
        ⟨⟨true, bh, btime, ib⟩, constants.BlockSizeLimit,
         constants.ArbitraryDataSizeLimit, constants.MinimumMinerFee⟩ s = some e) :=
  ⟨validTransaction_eq_firstError cs s t constants bh btime ib,
   fun vs1 vs2 v e h1 h2 => firstError_short_circuit vs1 vs2 v t _ s e h1 h2⟩

theorem C3_validation_pipeline_order_witness :
    csFix.validTransaction sFix tFix ⟨2000000, 83, 1⟩ 3 42 false =
      firstError
        (((lookupA csFix.txVersionMappedValidators tFix.Version).getD []) ++
          csFix.txValidators ++
          ((csFix.plugins.filter fun p =>
              p.2.boundVersion = none ∨ p.2.boundVersion = some tFix.Version).map
            fun p => p.2.validate))
        tFix ⟨⟨true, 3, 42, false⟩, 2000000, 83, 1⟩ sFix ∧
    firstError ([] ++ vFail7 :: []) tFix ⟨⟨true, 3, 42, false⟩, 2000000, 83, 1⟩ sFix =
      some (Err.vErr 7) := by
  have h := C3_validation_pipeline_order csFix sFix tFix ⟨2000000, 83, 1⟩ 3 42 false
  exact ⟨h.1, h.2 [] [] vFail7 (Err.vErr 7) rfl rfl⟩

/-- C9: for the empty batch, TryTransactionSet succeeds whenever the tip's
height and timestamp can be read, returning a consensus change with empty
coin-output and block-stake-output diff lists and a nil error, leaving the
store untouched. -/
theorem C9_empty_batch_succeeds (cs : ConsensusSet) (s : Store) (bt : Nat)
    (hstop : cs.tgStopped = false)
    (hbt : blockTimeStamp s (blockHeight s) = Except.ok bt) :
    cs.TryTransactionSet s [] =
      { store := s, cc := ⟨[], []⟩, err := none,
        events := [Event.tgAdd, Event.rLock, Event.dbUpdateTx] } := by
  unfold ConsensusSet.TryTransactionSet dbUpdate ConsensusSet.tryCallback
    ConsensusSet.tryLoop
  simp [hstop, hbt]
  exact ⟨rfl, rfl⟩

theorem C9_empty_batch_succeeds_witness :
    blockTimeStamp sFix (blockHeight sFix) = Except.ok 42 ∧
    csFix.TryTransactionSet sFix [] =
      { store := sFix, cc := ⟨[], []⟩, err := none,
        events := [Event.tgAdd, Event.rLock, Event.dbUpdateTx] } :=
  ⟨rfl, C9_empty_batch_succeeds csFix sFix 42 rfl rfl⟩

/-- C2: with a running shutdown coordinator, TryTransactionSet turns the
sentinel callback outcome into a successful consensus change carrying the
diff holder's accumulated coin-output and block-stake-output diffs with a nil
error; it passes a real callback failure through as the returned error with
an empty change; and every returned error is a real callback error, never the
sentinel. -/
theorem C2_sentinel_never_leaks (cs : ConsensusSet) (s : Store)
    (txns : List Transaction) (hstop : cs.tgStopped = false) :
    (∀ s2 dh2, cs.tryCallback txns s default = (s2, dh2, CbErr.errSuccess) →
      cs.TryTransactionSet s txns =
        { store := s, cc := ⟨dh2.CoinOutputDiffs, dh2.BlockStakeOutputDiffs⟩,
          err := none, events := [Event.tgAdd, Event.rLock, Event.dbUpdateTx] }) ∧
    (∀ s2 dh2 e, cs.tryCallback txns s default = (s2, dh2, CbErr.real e) →
      cs.TryTransactionSet s txns =
        { store := s, cc := default, err := some e,
          events := [Event.tgAdd, Event.rLock, Event.dbUpdateTx] }) ∧
    ((cs.TryTransactionSet s txns).err = none ∨
      ∃ e, (cs.TryTransactionSet s txns).err = some e ∧
        (cs.tryCallback txns s default).2.2 = CbErr.real e) := by
  refine ⟨?_, ?_, ?_⟩
  · intro s2 dh2 hcb
    unfold ConsensusSet.TryTransactionSet dbUpdate
    simp [hstop, hcb]
  · intro s2 dh2 e hcb
    unfold ConsensusSet.TryTransactionSet dbUpdate
    simp [hstop, hcb]
  · rcases hcb : cs.tryCallback txns s default with ⟨s2, dh2, e⟩
    unfold ConsensusSet.TryTransactionSet dbUpdate
    cases e with
    | nilErr => simp [hstop, hcb]
    | errSuccess => simp [hstop, hcb]
    | real e0 =>
      right
      refine ⟨e0, ?_, rfl⟩
      simp [hstop, hcb]

theorem C2_sentinel_never_leaks_witness :
    csFix.TryTransactionSet sFix [] =
      { store := sFix, cc := ⟨[], []⟩, err := none,
        events := [Event.tgAdd, Event.rLock, Event.dbUpdateTx] } ∧
    csReject.TryTransactionSet sFix [tFix] =
      { store := sFix, cc := default, err := some (Err.vErr 9),
        events := [Event.tgAdd, Event.rLock, Event.dbUpdateTx] } :=
  ⟨(C2_sentinel_never_leaks csFix sFix [] rfl).1 sFix ⟨⟨0, 0⟩, 3, 0, 0, [], []⟩ rfl,
   (C2_sentinel_never_leaks csReject sFix [tFix] rfl).2.1 sFix
     ⟨⟨0, 0⟩, 3, 0, 0, [], []⟩ (Err.vErr 9) rfl⟩

/-- The per-transaction loop never changes the diff holder's height: only
the diff lists are appended to. -/
theorem tryLoop_height (cs : ConsensusSet) (bt : Nat) (txns : List Transaction) :
    ∀ (s : Store) (dh : processedBlock),
      ((cs.tryLoop bt txns s dh).2.1).Height = dh.Height := by
  induction txns with
  | nil =>
    intro s dh
    simp [ConsensusSet.tryLoop]
  | cons txn rest ih =>
    intro s dh
    simp only [ConsensusSet.tryLoop]
    cases hv : cs.validTransaction s txn
        { BlockSizeLimit := cs.chainCts.BlockSizeLimit
          ArbitraryDataSizeLimit := cs.chainCts.ArbitraryDataSizeLimit
          MinimumMinerFee := cs.chainCts.MinimumTransactionFee }
        dh.Height bt false with
    | some e => simp [hv]
    | none =>
      simp only [hv]
      cases hp : applyPlugins (applyTransaction s dh txn).1 txn
          (applyTransaction s dh txn).2.Block (applyTransaction s dh txn).2.Height
          cs.plugins with
      | error e =>
        simp only [hp]
        rfl
      | ok s2 =>
        simp only [hp]
        rw [ih s2 (applyTransaction s dh txn).2]
        rfl

/-- The per-transaction loop splits along a batch decomposition: the suffix
runs from the state and diff holder the prefix left behind, and a prefix
failure short-circuits the whole loop. -/
theorem tryLoop_append (cs : ConsensusSet) (bt : Nat) (pre post : List Transaction) :
    ∀ (s : Store) (dh : processedBlock),
    cs.tryLoop bt (pre ++ post) s dh =
      match cs.tryLoop bt pre s dh with
      | (s1, dh1, none) => cs.tryLoop bt post s1 dh1
      | (s1, dh1, some e) => (s1, dh1, some e) := by
  induction pre with
  | nil =>
    intro s dh
    simp [ConsensusSet.tryLoop]
  | cons txn rest ih =>
    intro s dh
    simp only [List.cons_append, ConsensusSet.tryLoop]
    cases hv : cs.validTransaction s txn
        { BlockSizeLimit := cs.chainCts.BlockSizeLimit
          ArbitraryDataSizeLimit := cs.chainCts.ArbitraryDataSizeLimit
          MinimumMinerFee := cs.chainCts.MinimumTransactionFee }
        dh.Height bt false with
    | some e => simp [hv]
    | none =>
      simp only [hv]
      cases hp : applyPlugins (applyTransaction s dh txn).1 txn
          (applyTransaction s dh txn).2.Block (applyTransaction s dh txn).2.Height
          cs.plugins with
      | error e => simp [hp]
      | ok s2 =>
        simp only [hp]
        exact ih s2 (applyTransaction s dh txn).2

/-- With a running coordinator and a readable tip, the error returned by
TryTransactionSet is exactly the per-transaction loop's first error over the
whole batch (the sentinel having been translated to nil). -/
theorem tryTransactionSet_err_eq_loop (cs : ConsensusSet) (s : Store)
    (txns : List Transaction) (bt : Nat) (hstop : cs.tgStopped = false)
    (hbt : blockTimeStamp s (blockHeight s) = Except.ok bt) :
    (cs.TryTransactionSet s txns).err =
      (cs.tryLoop bt txns s
        { (default : processedBlock) with Height := blockHeight s }).2.2 := by
  unfold ConsensusSet.TryTransactionSet dbUpdate ConsensusSet.tryCallback
  rcases hl : cs.tryLoop bt txns s
      { (default : processedBlock) with Height := blockHeight s } with ⟨s2, dh2, oe⟩
  cases oe with
  | none => simp [hstop, hbt, hl]
  | some e => simp [hstop, hbt, hl]

/-- C4: for every transaction at every position of a batch on the try path:
once the loop has applied the preceding transactions, that transaction is
validated at the chain tip's stored height and that block's timestamp with
isBlockCreatingTx = false, and its validation failure is returned as the
call's error; consequently a transaction some global validator accepts only
in a block-creating context makes any batch containing it fail. -/
theorem C4_try_rejects_block_creating (cs : ConsensusSet) (s : Store) (bt : Nat)
    (hstop : cs.tgStopped = false)
    (hbt : blockTimeStamp s (blockHeight s) = Except.ok bt) :
    (∀ (pre : List Transaction) (txn : Transaction) (post : List Transaction)
        (s1 : Store) (dh1 : processedBlock) (e : Err),
      cs.tryLoop bt pre s { (default : processedBlock) with Height := blockHeight s } =
        (s1, dh1, none) →
      cs.validTransaction s1 txn
        ⟨cs.chainCts.BlockSizeLimit, cs.chainCts.ArbitraryDataSizeLimit,
         cs.chainCts.MinimumTransactionFee⟩ (blockHeight s) bt false = some e →
      (cs.TryTransactionSet s (pre ++ txn :: post)).err = some e) ∧
    (∀ v, v ∈ cs.txValidators →
      ∀ txn : Transaction,
      (∀ ctx st, ctx.ValidationContext.IsBlockCreatingTx = false →
        v txn ctx st ≠ none) →
      ∀ (pre post : List Transaction),
        (cs.TryTransactionSet s (pre ++ txn :: post)).err ≠ none) := by
  have hErrAt : ∀ (pre : List Transaction) (txn : Transaction) (post : List Transaction)
      (s1 : Store) (dh1 : processedBlock) (e : Err),
      cs.tryLoop bt pre s { (default : processedBlock) with Height := blockHeight s } =
        (s1, dh1, none) →
      cs.validTransaction s1 txn
        ⟨cs.chainCts.BlockSizeLimit, cs.chainCts.ArbitraryDataSizeLimit,
         cs.chainCts.MinimumTransactionFee⟩ (blockHeight s) bt false = some e →
      (cs.TryTransactionSet s (pre ++ txn :: post)).err = some e := by
    intro pre txn post s1 dh1 e hpre hval
    have hh : dh1.Height = blockHeight s := by
      have := tryLoop_height cs bt pre s
        { (default : processedBlock) with Height := blockHeight s }
      rw [hpre] at this
      exact this
    rw [tryTransactionSet_err_eq_loop cs s (pre ++ txn :: post) bt hstop hbt,
      tryLoop_append cs bt pre (txn :: post) s
        { (default : processedBlock) with Height := blockHeight s }, hpre]
    unfold ConsensusSet.tryLoop
    rw [hh, hval]
  refine ⟨hErrAt, ?_⟩
  intro v hv txn hrej pre post
  rcases hpre : cs.tryLoop bt pre s
      { (default : processedBlock) with Height := blockHeight s } with ⟨s1, dh1, oe⟩
  cases oe with
  | some e =>
    have : (cs.TryTransactionSet s (pre ++ txn :: post)).err = some e := by
      rw [tryTransactionSet_err_eq_loop cs s (pre ++ txn :: post) bt hstop hbt,
        tryLoop_append cs bt pre (txn :: post) s
          { (default : processedBlock) with Height := blockHeight s }, hpre]
    rw [this]
    simp
  | none =>
    cases hval : cs.validTransaction s1 txn
        ⟨cs.chainCts.BlockSizeLimit, cs.chainCts.ArbitraryDataSizeLimit,
         cs.chainCts.MinimumTransactionFee⟩ (blockHeight s) bt false with
    | some e =>
      rw [hErrAt pre txn post s1 dh1 e hpre hval]
      simp
    | none =>
      exfalso
      have hglob := validTransaction_none_global cs s1 txn
        ⟨cs.chainCts.BlockSizeLimit, cs.chainCts.ArbitraryDataSizeLimit,
         cs.chainCts.MinimumTransactionFee⟩ (blockHeight s) bt false hval
      have hnone := firstError_eq_none_mem cs.txValidators txn
        ⟨⟨true, blockHeight s, bt, false⟩, cs.chainCts.BlockSizeLimit,
         cs.chainCts.ArbitraryDataSizeLimit, cs.chainCts.MinimumTransactionFee⟩ s1
        hglob v hv
      exact hrej
        ⟨⟨true, blockHeight s, bt, false⟩, cs.chainCts.BlockSizeLimit,
         cs.chainCts.ArbitraryDataSizeLimit, cs.chainCts.MinimumTransactionFee⟩ s1
        rfl hnone

theorem C4_try_rejects_block_creating_witness :
    (csRejectV2.TryTransactionSet sFix [tFix, t2Fix]).err = some (Err.vErr 11) ∧
    (csRejectV2.TryTransactionSet sFix [tFix, t2Fix]).err ≠ none := by
  have h := C4_try_rejects_block_creating csRejectV2 sFix 42 rfl rfl
  constructor
  · exact h.1 [tFix] t2Fix []
      { blockMap := [(5, pbFix)], path := [(3, 5)], coinOutputs := [(2, ⟨99, 0⟩)],
        blockStakeOutputs := [], height := 3, pluginBuckets := [] }
      ⟨⟨0, 0⟩, 3, 0, 0, [⟨false, 1, ⟨100, 0⟩⟩, ⟨true, 2, ⟨99, 0⟩⟩], []⟩
      (Err.vErr 11) rfl rfl
  · exact h.2 vRejectV2Pool (by simp [csRejectV2, csFix]) t2Fix
      (fun ctx st hflag => by simp [vRejectV2Pool, t2Fix, hflag]) [tFix] []

end Goldchain

